import Mathlib

/-!
# Debbot — verification of the core engine against its specification

Shallow embedding of the ActionManager (rule store, trigger matching,
permission gating, step execution), the OBS client's auto-reconnection
state machine, and the Twitch EventSub session manager, translated from
the JavaScript sources:

  * `src/twitch/twitch-client.js` (ActionManager class)
  * `src/obs/obs-client.js` (OBSClient class) together with the
    `obs:disconnect` IPC handler of the main process
  * `src/twitch/twitch-api-client.js` (TwitchAPIClient EventSub methods)

Modelling conventions: JavaScript values that may be `undefined`/`null`
are embedded as `Option`; string fields whose absence the code tests by
truthiness (`!x` on a string) are embedded as `Option String` where
`none` and `some ""` are both falsy; code that can throw returns
`Except String`; the single-threaded event loop is embedded as explicit
state passing, with timers and socket lifecycle events made explicit
stimuli of a step relation.
-/

namespace Debbot

/-- `permissions` object of an Action: `{viewer, moderator, broadcaster}`. -/
structure Permissions where
  viewer : Bool
  moderator : Bool
  broadcaster : Bool
deriving DecidableEq, Repr

/-- Type-specific trigger `config` map.  Each field is `none` when the
corresponding key is absent (`undefined` in JavaScript). -/
structure TriggerConfig where
  command : Option String := none
  reward : Option String := none
  messageType : Option String := none
  note : Option Int := none
  controller : Option Int := none
  channel : Option Int := none
deriving DecidableEq, Repr

/-- One trigger of an Action: `{type, config}`. -/
structure Trigger where
  type : String
  config : TriggerConfig
deriving DecidableEq, Repr

/-- One step of an Action: `{type, value}`.  A step with no `value` key is
embedded with `value := ""` (the code only ever tests `!step.value`,
which conflates `undefined` and `""`). -/
structure Step where
  type : String
  value : String
deriving DecidableEq, Repr

/-- A stored Action record.  `permissions := none` models an Action with no
`permissions` key at all. -/
structure Action where
  id : String
  name : String
  triggers : List Trigger
  steps : List Step
  permissions : Option Permissions := none
deriving DecidableEq, Repr

/-- The raw object a caller passes to `createAction`: each field the code
defaults (`action.x = action.x || ...`) is optional here.  `id` and `name`
are tested by truthiness, so `""` plays the role of `undefined`. -/
structure ActionInput where
  id : String := ""
  name : String := ""
  triggers : Option (List Trigger) := none
  steps : Option (List Step) := none
  permissions : Option Permissions := none
deriving DecidableEq, Repr

/-! ## Rule Store (ActionManager CRUD, twitch-client.js lines 425–495)

The in-memory store is the `this.actions` array; `saveActions` mirrors it
verbatim to disk (file I/O abstracted away: the persisted record set is
the returned list). -/

/-- `saveActions(actions)`: overwrites the persisted record set with the
in-memory array verbatim.  No validation of any kind happens here. -/
def saveActions (actions : List Action) : List Action :=
  actions

/-- `createAction(action)`: fills defaults (id, name, triggers, steps),
appends to the store and saves.  `freshId` stands for the `uuidv4()`
result.  Returns the created record and the new store.  Note that no
validation runs: every input is stored. -/
def createAction (freshId : String) (inp : ActionInput) (store : List Action) :
    Action × List Action :=
  let a : Action :=
    { id := if inp.id = "" then freshId else inp.id
      name := if inp.name = "" then "Unnamed Action" else inp.name
      triggers := inp.triggers.getD [{ type := "command", config := {} }]
      steps := inp.steps.getD []
      permissions := inp.permissions }
  (a, store ++ [a])

/-- `updateAction(actionId, updatedAction)`: replaces the record at the
index found for `actionId` (preserving the id), errors if absent.  The
replacement is stored verbatim, unvalidated. -/
def updateAction (actionId : String) (upd : Action) (store : List Action) :
    Except String (List Action) :=
  match store.findIdx? (fun a => a.id = actionId) with
  | none => .error ("Action with ID " ++ actionId ++ " not found")
  | some i => .ok (store.set i { upd with id := actionId })

/-- `validateAction(action)` (twitch-client.js lines 1101–1140): collects
error strings for a missing/invalid name, empty or ill-typed trigger list,
unknown trigger types, command triggers without a command string, and
steps missing a type or (for non-exempt types) a value.  It never looks
at `permissions`.  Returns the `errors` array; `valid` is its emptiness. -/
def validateAction (a : ActionInput) : List String :=
  let nameErrs := if a.name = "" then ["Action must have a valid name"] else []
  let trigErrs :=
    match a.triggers with
    | none => ["Action must have at least one trigger"]
    | some ts =>
      if ts.isEmpty then ["Action must have at least one trigger"]
      else
        (ts.enum.map (fun (index, t) =>
          (if t.type = "" then
            ["Trigger " ++ toString (index + 1) ++ " is missing type"]
          else if !(["command", "timer", "channel_points", "cheer",
                     "subscriber", "midi"].contains t.type) then
            ["Trigger " ++ toString (index + 1) ++ " has invalid type: " ++ t.type]
          else []) ++
          (if t.type = "command" ∧ (t.config.command = none ∨ t.config.command = some "") then
            ["Command trigger " ++ toString (index + 1) ++ " must have a command"]
          else []))).flatten
  let stepErrs :=
    match a.steps with
    | none => ["Action steps must be an array"]
    | some ss =>
      (ss.enum.map (fun (index, s) =>
        if s.type = "" then
          ["Step " ++ toString (index + 1) ++ " is missing type"]
        else if s.value = "" ∧
            !(["obs_start_streaming", "obs_stop_streaming",
               "obs_source_show", "obs_source_hide"].contains s.type) then
          ["Step " ++ toString (index + 1) ++ " is missing value"]
        else [])).flatten
  nameErrs ++ trigErrs ++ stepErrs

/-! ## Trigger matching (twitch-client.js lines 497–524, 751–839, 892–943) -/

/-- `!`-prefix normalization used by `getActionsByCommand`: strip one
leading `!` if present (`cmd.startsWith('!') ? cmd.substring(1) : cmd`,
stated on the character list: a string starts with `"!"` iff its first
character is `'!'`, and `substring(1)` drops that character). -/
def stripBang (s : String) : String :=
  match s.data with
  | '!' :: rest => ⟨rest⟩
  | _ => s

/-- The comparison `getActionsByCommand` performs between a stored command
string and the incoming command: case-sensitive equality after stripping
one leading `!` from each side. -/
def commandMatches (stored input : String) : Bool :=
  stripBang stored == stripBang input

/-- The filter predicate of `getActionsByCommand`, evaluated on one action:
find the first `command` trigger; actions without one are excluded; then
read `config.command` and normalize.  Reading `config.command` when the
key is absent is `undefined.startsWith`, a thrown `TypeError`, embedded as
`Except.error`. -/
def actionCommandMatch (a : Action) (command : String) : Except String Bool :=
  match a.triggers.find? (fun t => t.type == "command") with
  | none => .ok false
  | some t =>
    match t.config.command with
    | none =>
      .error "TypeError: Cannot read properties of undefined (reading 'startsWith')"
    | some stored => .ok (commandMatches stored command)

/-- `getActionsByCommand(command)`: `this.actions.filter(...)` with the
predicate above, evaluated left to right; the first thrown `TypeError`
aborts the whole filter. -/
def getActionsByCommand (store : List Action) (command : String) :
    Except String (List Action) :=
  match store with
  | [] => .ok []
  | a :: rest => do
    let b ← actionCommandMatch a command
    let l ← getActionsByCommand rest command
    pure (if b then a :: l else l)

/-- The filter predicate of `getActionsByChannelPoints`: first
`channel_points` trigger; a falsy `config.reward` (absent or `""`) matches
any reward id, otherwise exact equality with the event's reward id. -/
def channelPointMatch (a : Action) (rewardId : String) : Bool :=
  match a.triggers.find? (fun t => t.type == "channel_points") with
  | none => false
  | some t =>
    match t.config.reward with
    | none => true
    | some r => if r = "" then true else r == rewardId

/-- `getActionsByChannelPoints(rewardId)`. -/
def getActionsByChannelPoints (store : List Action) (rewardId : String) :
    List Action :=
  store.filter (fun a => channelPointMatch a rewardId)

/-- `getActionsByTrigger(triggerType)`: actions having some trigger of the
given type. -/
def getActionsByTrigger (store : List Action) (triggerType : String) :
    List Action :=
  store.filter (fun a => a.triggers.any (fun t => t.type == triggerType))

/-- An incoming MIDI event's payload (fields used by matching plus the
unused `value`/`velocity`, kept for fidelity). -/
structure MIDIData where
  type : String
  note : Int
  controller : Int
  value : Int
  velocity : Int
  channel : Int
deriving DecidableEq, Repr

/-- The filter predicate of `getActionsByMIDITrigger`: first `midi`
trigger; `config.messageType` must equal the event type (an absent
`messageType` never equals a string); an absent `config.channel` matches
any channel; then note/controller equality by message type, `pitch`
matching unconditionally, unknown types never. -/
def midiMatch (m : MIDIData) (a : Action) : Bool :=
  match a.triggers.find? (fun t => t.type == "midi") with
  | none => false
  | some t =>
    let config := t.config
    if config.messageType ≠ some m.type then false
    else if config.channel ≠ none ∧ config.channel ≠ some m.channel then false
    else if m.type = "noteon" ∨ m.type = "noteoff" then config.note == some m.note
    else if m.type = "cc" then config.controller == some m.controller
    else if m.type = "pitch" then true
    else false

/-- `getActionsByMIDITrigger(midiData)`. -/
def getActionsByMIDITrigger (store : List Action) (m : MIDIData) : List Action :=
  store.filter (fun a => midiMatch m a)

/-! ## Permission gating (twitch-client.js lines 775–795) -/

/-- `checkUserPermissions(action, isBroadcaster, isMod)`: no `permissions`
object means always allowed; otherwise the first satisfied role clause
wins, and a caller that is neither broadcaster nor moderator counts as
viewer. -/
def checkUserPermissions (a : Action) (isBroadcaster isMod : Bool) : Bool :=
  match a.permissions with
  | none => true
  | some p =>
    if isBroadcaster && p.broadcaster then true
    else if isMod && p.moderator then true
    else if !isBroadcaster && !isMod && p.viewer then true
    else false

/-! ## Dispatch handlers (twitch-client.js lines 751–773, 798–906)

Each handler is embedded as the ordered list of ids of the actions whose
execution it attempts (`executeAction` is called for each; its own
success or failure is caught per action and changes nothing about which
actions are attempted). -/

/-- `handleCommandTrigger({command, isBroadcaster, isMod})`: matching
actions are fetched by `getActionsByCommand` (whose `TypeError`
propagates), then each is executed only if `checkUserPermissions` passes;
denied actions are silently skipped. -/
def handleCommandTrigger (store : List Action) (command : String)
    (isBroadcaster isMod : Bool) : Except String (List String) := do
  let actions ← getActionsByCommand store command
  pure ((actions.filter (fun a => checkUserPermissions a isBroadcaster isMod)).map
    (fun a => a.id))

/-- `handleChannelPointTrigger({rewardId, ..., anyReward})`: the
`anyReward` sampling path queries with the empty reward id, the normal
path with the event's reward id; every matching action is executed, with
no permission check. -/
def handleChannelPointTrigger (store : List Action) (rewardId : String)
    (anyReward : Bool) : List String :=
  let actions :=
    if anyReward then getActionsByChannelPoints store ""
    else getActionsByChannelPoints store rewardId
  actions.map (fun a => a.id)

/-- `handleCheerTrigger`: every action with a `cheer` trigger is executed,
with no permission check. -/
def handleCheerTrigger (store : List Action) : List String :=
  (getActionsByTrigger store "cheer").map (fun a => a.id)

/-- `handleSubscriberTrigger`: every action with a `subscriber` trigger is
executed, with no permission check. -/
def handleSubscriberTrigger (store : List Action) : List String :=
  (getActionsByTrigger store "subscriber").map (fun a => a.id)

/-- `handleMIDITrigger(midiData)`: every action matched by
`getActionsByMIDITrigger` is executed, with no permission check. -/
def handleMIDITrigger (store : List Action) (m : MIDIData) : List String :=
  (getActionsByMIDITrigger store m).map (fun a => a.id)

/-- Replace an action's `permissions` field, leaving everything else
untouched (used to state that non-command dispatch never reads it). -/
def setPermissions (p : Option Permissions) (a : Action) : Action :=
  { a with permissions := p }

/-! ## JavaScript `parseInt` (used by `executeDelayStep`)

ECMAScript `parseInt(string)` with the radix argument omitted: skip
leading whitespace, read an optional sign, detect a `0x`/`0X` prefix
(radix 16, else 10), then take the longest prefix of radix digits; an
empty digit prefix yields `NaN` (embedded as `none`), anything after the
digit prefix is ignored.  Whitespace is modelled by the ASCII members of
the WhiteSpace/LineTerminator productions. -/

/-- ASCII whitespace recognized before the number. -/
def jsIsSpace (c : Char) : Bool :=
  c = ' ' ∨ c = '\t' ∨ c = '\n' ∨ c = '\r' ∨ c = '\x0b' ∨ c = '\x0c'

/-- Value of a decimal digit, `none` for any other character. -/
def decDigitVal (c : Char) : Option Nat :=
  if '0' ≤ c ∧ c ≤ '9' then some (c.toNat - 48) else none

/-- Value of a hexadecimal digit, `none` for any other character. -/
def hexDigitVal (c : Char) : Option Nat :=
  if '0' ≤ c ∧ c ≤ '9' then some (c.toNat - 48)
  else if 'a' ≤ c ∧ c ≤ 'f' then some (c.toNat - 87)
  else if 'A' ≤ c ∧ c ≤ 'F' then some (c.toNat - 55)
  else none

/-- Longest prefix of digits under the given digit reader. -/
def digitPrefix (dv : Char → Option Nat) : List Char → List Nat
  | [] => []
  | c :: rest =>
    match dv c with
    | none => []
    | some d => d :: digitPrefix dv rest

/-- Value of a digit list in the given radix, most significant first. -/
def radixVal (radix : Nat) (ds : List Nat) : Nat :=
  ds.foldl (fun acc d => acc * radix + d) 0

/-- Read the optional sign: a leading `-` gives sign `-1`, a leading `+`
sign `1`, both consumed; anything else leaves the input untouched. -/
def splitSign (l : List Char) : Int × List Char :=
  if l.head? = some '-' then (-1, l.tail)
  else if l.head? = some '+' then (1, l.tail)
  else (1, l)

/-- Detect the `0x`/`0X` prefix: present gives radix 16 with the prefix
consumed, otherwise radix 10 on the untouched input. -/
def splitRadix (l : List Char) : Nat × List Char × (Char → Option Nat) :=
  if l.head? = some '0' ∧ (l.tail.head? = some 'x' ∨ l.tail.head? = some 'X') then
    (16, l.tail.tail, hexDigitVal)
  else (10, l, decDigitVal)

/-- `parseInt(s)` with radix undefined; `none` is `NaN`. -/
def jsParseInt (s : String) : Option Int :=
  let l := s.data.dropWhile jsIsSpace
  let (sgn, l1) := splitSign l
  let (radix, l2, dv) := splitRadix l1
  let ds := digitPrefix dv l2
  if ds.isEmpty then none else some (sgn * (radixVal radix ds : Nat))

/-! ## Step Executor (twitch-client.js lines 527–748)

Collaborator calls and log emissions are recorded as an effect trace; the
availability and outcome of each external collaborator call is an
environment parameter.  A step evaluates to the effects it performed plus
`some errorMessage` when it threw. -/

/-- One observable effect of running a step. -/
inductive Effect where
  | obsCall (op : String) (arg : String)
  | twitchSend (message : String)
  | playSound (path : String)
  | sleep (ms : Int)
  | log (level : String) (message : String)
  | warnUnknown (stepType : String)
  | actionTriggered (actionName : String)
deriving DecidableEq, Repr

/-- Environment of one execution: presence/connectedness of the global
collaborators and the outcome of each call (`none` = the call succeeds,
`some e` = it rejects with error message `e`). -/
structure ExecEnv where
  obsClientPresent : Bool := true
  obsConnected : Bool := true
  twitchClientPresent : Bool := true
  twitchConnected : Bool := true
  mainWindowPresent : Bool := true
  obsCallOutcome : String → String → Option String := fun _ _ => none
  twitchSendOutcome : String → Option String := fun _ => none

/-- An OBS-backed step (`executeOBSSceneStep` and friends): requires
`global.obsClient` present and connected, performs the collaborator call,
and on success emits the success log entry (when the main window
exists). -/
def execOBSStep (env : ExecEnv) (op arg logMsg : String) :
    List Effect × Option String :=
  if !(env.obsClientPresent && env.obsConnected) then ([], some "OBS not connected")
  else
    match env.obsCallOutcome op arg with
    | some e => ([.obsCall op arg], some e)
    | none =>
      ([.obsCall op arg] ++ (if env.mainWindowPresent then [.log "success" logMsg] else []),
       none)

/-- `executeTwitchMessageStep(message)`. -/
def executeTwitchMessageStep (env : ExecEnv) (message : String) :
    List Effect × Option String :=
  if !(env.twitchClientPresent && env.twitchConnected) then
    ([], some "Twitch not connected")
  else
    match env.twitchSendOutcome message with
    | some e => ([.twitchSend message], some e)
    | none =>
      ([.twitchSend message] ++
       (if env.mainWindowPresent then
          [.log "success" ("Sent Twitch message: " ++ message)] else []),
       none)

/-- `executePlaySoundStep(soundPath)`: empty/whitespace path throws; the
sound request goes to the renderer via the main window, which must
exist. -/
def executePlaySoundStep (env : ExecEnv) (soundPath : String) :
    List Effect × Option String :=
  if soundPath.trim = "" then ([], some "No sound file path specified")
  else if env.mainWindowPresent then
    ([.playSound soundPath, .log "success" ("Playing sound: " ++ soundPath)], none)
  else ([], some "Main window not available for sound playback")

/-- `executeDelayStep(delayMs)`: `parseInt` the value; `NaN` or a negative
result throws, otherwise suspend for that many milliseconds.  No external
collaborator is involved. -/
def executeDelayStep (delayMs : String) : List Effect × Option String :=
  match jsParseInt delayMs with
  | none => ([], some ("Invalid delay value: " ++ delayMs))
  | some delay =>
    if delay < 0 then ([], some ("Invalid delay value: " ++ delayMs))
    else ([.sleep delay], none)

/-- `executeStep(step)`: dispatch on the step type; unknown types only
log a warning and succeed. -/
def executeStep (env : ExecEnv) (step : Step) : List Effect × Option String :=
  if step.type = "obs_scene" then
    execOBSStep env "switchScene" step.value ("Switched OBS to scene: " ++ step.value)
  else if step.type = "obs_source" then
    execOBSStep env "toggleSource" step.value ("Toggled OBS source: " ++ step.value)
  else if step.type = "obs_source_show" then
    execOBSStep env "showSource" step.value ("Showed OBS source: " ++ step.value)
  else if step.type = "obs_source_hide" then
    execOBSStep env "hideSource" step.value ("Hid OBS source: " ++ step.value)
  else if step.type = "obs_start_streaming" then
    execOBSStep env "startStreaming" "" "Started OBS streaming"
  else if step.type = "obs_stop_streaming" then
    execOBSStep env "stopStreaming" "" "Stopped OBS streaming"
  else if step.type = "twitch_message" then
    executeTwitchMessageStep env step.value
  else if step.type = "play_sound" then
    executePlaySoundStep env step.value
  else if step.type = "delay" then
    executeDelayStep step.value
  else ([.warnUnknown step.type], none)

/-- The `for (const step of action.steps) await this.executeStep(step)`
loop of `executeAction`: steps run strictly in order, each awaited to
completion; the first step that throws ends the loop. -/
def runSteps (env : ExecEnv) : List Step → List Effect × Option String
  | [] => ([], none)
  | s :: rest =>
    let (eff, err) := executeStep env s
    match err with
    | some e => (eff, some e)
    | none =>
      let (eff2, err2) := runSteps env rest
      (eff ++ eff2, err2)

/-- `executeAction` around the loop: on success emit the
`action:triggered` notification (main window permitting); on failure log
the structured error entry and rethrow to the caller. -/
def executeActionSteps (env : ExecEnv) (name : String) (steps : List Step) :
    List Effect × Option String :=
  let (eff, err) := runSteps env steps
  match err with
  | none =>
    (eff ++ (if env.mainWindowPresent then [.actionTriggered name] else []), none)
  | some e =>
    (eff ++ (if env.mainWindowPresent then
       [.log "error" ("Action \"" ++ name ++ "\" failed: " ++ e)] else []),
     some e)

/-! ## Connection Supervisor (obs-client.js lines 14–21, 254–392, and the
`obs:disconnect` IPC handler of the main process)

The constructor constants and the mutable connection fields of
`OBSClient`, with the single pending `setTimeout` handle made explicit
(`reconnectTimeout = some delay` while a timer is pending) and the
liveness of the underlying socket tracked so that socket lifecycle
events (`ConnectionClosed`, `ConnectionError`) can only be delivered
while a socket exists. -/

/-- `this.maxRetries`. -/
def obsMaxRetries : Nat := 10

/-- `this.initialRetryDelay` (ms). -/
def obsInitialRetryDelay : Nat := 1000

/-- `this.maxRetryDelay` (ms). -/
def obsMaxRetryDelay : Nat := 30000

/-- Mutable state of one `OBSClient` instance. -/
structure OBSState where
  connected : Bool
  autoReconnect : Bool
  currentRetryCount : Nat
  reconnectTimeout : Option Nat
  lastConnectionConfig : Option String
  isReconnecting : Bool
  socketLive : Bool
deriving DecidableEq, Repr

/-- Notifications and collaborator calls the supervisor emits. -/
inductive OBSOut where
  | reconnecting (attempt maxAttempts delay : Nat)
  | reconnectionFailed (attempts : Nat) (error : String)
  | connectAttempt (config : String)
  | disconnectedEvt
  | reconnectedEvt
deriving DecidableEq, Repr

/-- `startReconnection()`: give up at the retry cap, otherwise increment
the counter, compute the exponential-backoff delay, emit the
`obs:reconnecting` status and schedule the timer (replacing any pending
one). -/
def startReconnection (s : OBSState) : OBSState × List OBSOut :=
  if s.currentRetryCount ≥ obsMaxRetries then
    ({ s with isReconnecting := false }, [])
  else
    let count := s.currentRetryCount + 1
    let delay := min (obsInitialRetryDelay * 2 ^ (count - 1)) obsMaxRetryDelay
    ({ s with isReconnecting := true, currentRetryCount := count,
              reconnectTimeout := some delay },
     [.reconnecting count obsMaxRetries delay])

/-- `stopReconnection()`: clear the pending timer and discard the retry
state. -/
def stopReconnection (s : OBSState) : OBSState :=
  { s with reconnectTimeout := none, isReconnecting := false,
           currentRetryCount := 0 }

/-- `handleConnectionClosed()`: mark disconnected, start auto-reconnection
when enabled, configured and not already running, and emit the
`obs:disconnected` event.  Delivered only when a socket existed; the
socket is gone afterwards. -/
def handleConnectionClosed (s : OBSState) : OBSState × List OBSOut :=
  let s1 := { s with connected := false, socketLive := false }
  if s1.autoReconnect ∧ s1.lastConnectionConfig.isSome ∧ !s1.isReconnecting then
    let (s2, out) := startReconnection s1
    (s2, out ++ [.disconnectedEvt])
  else (s1, [.disconnectedEvt])

/-- `handleConnectionError(error)`: same reconnection-triggering guard as
the close handler, with no state change of its own. -/
def handleConnectionError (s : OBSState) : OBSState × List OBSOut :=
  if s.autoReconnect ∧ s.lastConnectionConfig.isSome ∧ !s.isReconnecting then
    startReconnection s
  else (s, [])

/-- The pending reconnection timer fires: the scheduled
`connect(lastConnectionConfig)` attempt runs; `ok` tells whether it
succeeds (`err` is the failure message otherwise).  Success resets the
retry state (`connect` + `handleConnectionOpened`); the final failed
attempt emits the terminal `obs:reconnection_failed` notification, an
earlier failure re-enters `startReconnection`. -/
def timerFire (s : OBSState) (ok : Bool) (err : String) : OBSState × List OBSOut :=
  let cfg := s.lastConnectionConfig.getD ""
  let s1 := { s with reconnectTimeout := none }
  if ok then
    ({ s1 with connected := true, socketLive := true, isReconnecting := false,
               currentRetryCount := 0 },
     [.connectAttempt cfg, .reconnectedEvt])
  else if s1.currentRetryCount ≥ obsMaxRetries then
    ({ s1 with isReconnecting := false },
     [.connectAttempt cfg, .reconnectionFailed s1.currentRetryCount err])
  else
    let (s2, out) := startReconnection s1
    (s2, .connectAttempt cfg :: out)

/-- `setAutoReconnect(enabled)`: disabling also stops any ongoing
reconnection. -/
def setAutoReconnect (enabled : Bool) (s : OBSState) : OBSState :=
  let s1 := { s with autoReconnect := enabled }
  if !enabled then stopReconnection s1 else s1

/-- The `obs:disconnect` IPC handler: `stopReconnection()` then
`disconnect()`.  `this.obs.disconnect()` on a live socket closes it and
the close handler runs; on an already-dead socket (the case while
reconnecting) it is a no-op and no lifecycle event fires.  Either way
`connected` ends up false. -/
def ipcDisconnect (s : OBSState) : OBSState × List OBSOut :=
  let s1 := stopReconnection s
  if s1.socketLive then
    let (s2, out) := handleConnectionClosed s1
    ({ s2 with connected := false }, out)
  else
    ({ s1 with connected := false }, [])

/-- External stimuli the supervisor can receive after that point; an
explicit new connect request is deliberately not among them. -/
inductive OBSStim where
  | closedEvt
  | errorEvt
  | fire (ok : Bool) (err : String)
  | ipcDisc
  | setAuto (enabled : Bool)
deriving DecidableEq, Repr

/-- Deliver one stimulus: socket lifecycle events require a live socket,
a timer can only fire while scheduled; otherwise the corresponding
handler from the source runs. -/
def obsStep (s : OBSState) : OBSStim → OBSState × List OBSOut
  | .closedEvt => if s.socketLive then handleConnectionClosed s else (s, [])
  | .errorEvt => if s.socketLive then handleConnectionError s else (s, [])
  | .fire ok err =>
    if s.reconnectTimeout.isSome then timerFire s ok err else (s, [])
  | .ipcDisc => ipcDisconnect s
  | .setAuto enabled => (setAutoReconnect enabled s, [])

/-- Run a stimulus sequence, concatenating the emitted outputs. -/
def obsRun (s : OBSState) : List OBSStim → OBSState × List OBSOut
  | [] => (s, [])
  | stim :: rest =>
    let (s1, out1) := obsStep s stim
    let (s2, out2) := obsRun s1 rest
    (s2, out1 ++ out2)

/-- A connected client as produced by a successful explicit `connect`. -/
def obsConnectedState (cfg : String) : OBSState :=
  { connected := true, autoReconnect := true, currentRetryCount := 0,
    reconnectTimeout := none, lastConnectionConfig := some cfg,
    isReconnecting := false, socketLive := true }

/-! ## EventSub Session Manager (twitch-api-client.js lines 444–608)

Inbound protocol frames are processed by
`handleEventSubWebSocketMessage`; the create-subscription HTTP request
and the forwarding of a translated redemption event toward the Action
Engine (`channel_point_redeem` → `actions:triggerChannelPoint` →
`handleChannelPointTrigger`) are the observable outputs.  `auth` is
`isAuthenticated() && tokens.user`; `subIdOf` supplies the
server-assigned subscription id of the create response for a given
session id. -/

/-- A channel-points redemption event payload (the fields
`handleChannelPointRedemption` forwards). -/
structure Redeem where
  id : String
  rewardId : String
  rewardTitle : String
  userName : String
  userId : String
  userInput : String
  redeemedAt : String
deriving DecidableEq, Repr

/-- Inbound EventSub WebSocket frames, by `metadata.message_type`. -/
inductive ESMsg where
  | sessionWelcome (sessionId : String)
  | sessionKeepalive
  | notificationMsg (subType : String) (ev : Redeem)
  | sessionReconnect
deriving DecidableEq, Repr

/-- Observable outputs of the session manager. -/
inductive ESOut where
  | subscribeCreate (sessionId : String)
  | dispatchRedeem (ev : Redeem)
deriving DecidableEq, Repr

/-- Session-manager state: the stored session id and the tracked
subscription ids (`this.eventSubSubscriptions`). -/
structure ESState where
  sessionId : Option String := none
  subscriptions : List String := []
deriving DecidableEq, Repr

/-- `handleEventSubWebSocketMessage`, one frame: a welcome stores the
session id and (when authenticated) issues the create-subscription
request bound to that session id, remembering the response's
subscription id; a keepalive does nothing; a notification of the
redemption type is translated and forwarded to dispatch; a
`session_reconnect` reopens the socket, so the next frame is the new
socket's welcome and no output is produced here. -/
def handleESMessage (auth : Bool) (subIdOf : String → String) (s : ESState) :
    ESMsg → ESState × List ESOut
  | .sessionWelcome sid =>
    if auth then
      ({ s with sessionId := some sid,
                subscriptions := s.subscriptions ++ [subIdOf sid] },
       [.subscribeCreate sid])
    else ({ s with sessionId := some sid }, [])
  | .sessionKeepalive => (s, [])
  | .notificationMsg subType ev =>
    (s, if subType = "channel.channel_points_custom_reward_redemption.add" then
          [.dispatchRedeem ev]
        else [])
  | .sessionReconnect => (s, [])

/-- Process a frame sequence, concatenating outputs. -/
def processESFrames (auth : Bool) (subIdOf : String → String) (s : ESState) :
    List ESMsg → ESState × List ESOut
  | [] => (s, [])
  | m :: rest =>
    let (s1, out1) := handleESMessage auth subIdOf s m
    let (s2, out2) := processESFrames auth subIdOf s1 rest
    (s2, out1 ++ out2)

/-! ## Theorems -/

/-- A command-triggered action with the given stored command string. -/
def sampleCommandAction (stored : String) : Action :=
  { id := "a1", name := "A",
    triggers := [{ type := "command", config := { command := some stored } }],
    steps := [], permissions := none }

/-- Claim C6: a stored command and an input command match iff they are
equal after stripping at most one leading `!` from each side; the
relation is symmetric in which side carries the `!` (input `"!foo"`
matches stored `"foo"` and input `"foo"` matches stored `"!foo"`), and
the residual comparison is case-sensitive exact equality; this is the
comparison `getActionsByCommand` filters with. -/
theorem commandMatch_prefix_insensitive :
    (∀ stored input : String,
      commandMatches stored input = true ↔ stripBang stored = stripBang input) ∧
    commandMatches "foo" "!foo" = true ∧
    commandMatches "!foo" "foo" = true ∧
    commandMatches "Foo" "foo" = false ∧
    getActionsByCommand [sampleCommandAction "foo"] "!foo"
      = .ok [sampleCommandAction "foo"] ∧
    getActionsByCommand [sampleCommandAction "!foo"] "foo"
      = .ok [sampleCommandAction "!foo"] := by
  refine ⟨fun stored input => ?_, by decide, by decide, by decide, by rfl, by rfl⟩
  simp [commandMatches]

/-- Claim C7: an action whose first `channel_points` trigger has an
absent or empty `reward` config matches a redemption of any reward id;
one carrying a specific (non-empty) reward id matches exactly the
redemptions whose reward id equals it; and `getActionsByChannelPoints`
returns precisely the store members satisfying this predicate. -/
theorem channelPoints_reward_matching :
    (∀ (a : Action) (rewardId : String) (t : Trigger),
      a.triggers.find? (fun tr => tr.type == "channel_points") = some t →
      ((t.config.reward = none ∨ t.config.reward = some "") →
        channelPointMatch a rewardId = true) ∧
      (∀ r, t.config.reward = some r → r ≠ "" →
        (channelPointMatch a rewardId = true ↔ rewardId = r))) ∧
    (∀ (store : List Action) (rewardId : String) (a : Action),
      a ∈ getActionsByChannelPoints store rewardId ↔
        a ∈ store ∧ channelPointMatch a rewardId = true) := by
  constructor
  · intro a rewardId t ht
    constructor
    · intro h
      simp only [channelPointMatch]
      rw [ht]
      rcases h with h | h <;> simp [h]
    · intro r hr hne
      simp only [channelPointMatch]
      rw [ht]
      show (match t.config.reward with
            | none => true
            | some r => if r = "" then true else r == rewardId) = true ↔ rewardId = r
      rw [hr]
      show (if r = "" then true else r == rewardId) = true ↔ rewardId = r
      rw [if_neg hne]
      constructor
      · intro hb
        exact (eq_of_beq hb).symm
      · intro he
        subst he
        exact beq_self_eq_true rewardId
  · intro store rewardId a
    simp [getActionsByChannelPoints, List.mem_filter]

/-- Witness for C7 at a concrete store: an any-reward action matches an
arbitrary redemption, a specific-reward action matches exactly its own
reward id. -/
theorem channelPoints_reward_matching_witness :
    (channelPointMatch
      { id := "a1", name := "A",
        triggers := [{ type := "channel_points", config := {} }],
        steps := [], permissions := none } "rewardX" = true) ∧
    (channelPointMatch
      { id := "a2", name := "B",
        triggers := [{ type := "channel_points",
                       config := { reward := some "r1" } }],
        steps := [], permissions := none } "rewardX" = false) := by
  have h1 := (channelPoints_reward_matching.1
    { id := "a1", name := "A",
      triggers := [{ type := "channel_points", config := {} }],
      steps := [], permissions := none } "rewardX"
    { type := "channel_points", config := {} } rfl).1 (Or.inl rfl)
  have h2 := (channelPoints_reward_matching.1
    { id := "a2", name := "B",
      triggers := [{ type := "channel_points",
                     config := { reward := some "r1" } }],
      steps := [], permissions := none } "rewardX"
    { type := "channel_points", config := { reward := some "r1" } } rfl).2
    "r1" rfl (by decide)
  refine ⟨h1, ?_⟩
  cases hcp : channelPointMatch
    { id := "a2", name := "B",
      triggers := [{ type := "channel_points",
                     config := { reward := some "r1" } }],
      steps := [], permissions := none } "rewardX"
  · rfl
  · exact absurd (h2.mp hcp) (by decide)

/-- Claim C8: after a `session_welcome`, a delivered notification, a
`session_reconnect` and the new socket's `session_welcome`, the session
manager has issued exactly two create-subscription requests — one per
welcome, each bound to that welcome's session id — and the notification
received in each session is translated and forwarded to dispatch. -/
theorem eventsub_resubscribes_after_reconnect :
    ∀ (subIdOf : String → String) (sid1 sid2 : String) (ev1 ev2 : Redeem),
      (processESFrames true subIdOf {}
        [.sessionWelcome sid1,
         .notificationMsg "channel.channel_points_custom_reward_redemption.add" ev1,
         .sessionReconnect,
         .sessionWelcome sid2,
         .notificationMsg "channel.channel_points_custom_reward_redemption.add" ev2]).2
      = [.subscribeCreate sid1, .dispatchRedeem ev1,
         .subscribeCreate sid2, .dispatchRedeem ev2] ∧
      ((processESFrames true subIdOf {}
        [.sessionWelcome sid1,
         .notificationMsg "channel.channel_points_custom_reward_redemption.add" ev1,
         .sessionReconnect,
         .sessionWelcome sid2,
         .notificationMsg "channel.channel_points_custom_reward_redemption.add" ev2]).2.countP
        (fun o => match o with | .subscribeCreate _ => true | _ => false)) = 2 := by
  intro subIdOf sid1 sid2 ev1 ev2
  constructor
  · simp [processESFrames, handleESMessage]
  · simp [processESFrames, handleESMessage, List.countP, List.countP.go]

/-- Changing only the `permissions` field of every stored action does not
change which ids a permission-blind matcher selects, provided the filter
predicate ignores permissions. -/
theorem filter_ids_setPermissions (p : Option Permissions) (q : Action → Bool)
    (hq : ∀ a, q (setPermissions p a) = q a) :
    ∀ store : List Action,
      ((store.map (setPermissions p)).filter q).map (fun a => a.id)
        = (store.filter q).map (fun a => a.id) := by
  intro store
  induction store with
  | nil => rfl
  | cons a rest ih =>
    simp only [List.map_cons, List.filter_cons, hq]
    cases q a <;> simp [ih, setPermissions]

/-- Claim C5: for command dispatch, a matching action is executed iff the
caller's role passes `checkUserPermissions` — always when the action has
no permission map, else exactly when the broadcaster/moderator/viewer
clause for the caller's role is enabled; channel-points, cheer,
subscriber and MIDI dispatch execute every matching action and never
consult `permissions` (timer events have no dispatch path at all). -/
theorem command_dispatch_permission_gating :
    (∀ (store : List Action) (command : String) (isBroadcaster isMod : Bool),
      handleCommandTrigger store command isBroadcaster isMod =
        (getActionsByCommand store command).map (fun actions =>
          (actions.filter (fun a => checkUserPermissions a isBroadcaster isMod)).map
            (fun a => a.id))) ∧
    (∀ (a : Action) (isBroadcaster isMod : Bool),
      checkUserPermissions a isBroadcaster isMod = true ↔
        (a.permissions = none ∨
          ∃ p, a.permissions = some p ∧
            ((isBroadcaster = true ∧ p.broadcaster = true) ∨
             (isMod = true ∧ p.moderator = true) ∨
             (isBroadcaster = false ∧ isMod = false ∧ p.viewer = true)))) ∧
    (∀ (store : List Action) (p : Option Permissions) (rewardId : String)
        (anyReward : Bool),
      handleChannelPointTrigger (store.map (setPermissions p)) rewardId anyReward
        = handleChannelPointTrigger store rewardId anyReward) ∧
    (∀ (store : List Action) (p : Option Permissions),
      handleCheerTrigger (store.map (setPermissions p)) = handleCheerTrigger store) ∧
    (∀ (store : List Action) (p : Option Permissions),
      handleSubscriberTrigger (store.map (setPermissions p))
        = handleSubscriberTrigger store) ∧
    (∀ (store : List Action) (p : Option Permissions) (m : MIDIData),
      handleMIDITrigger (store.map (setPermissions p)) m
        = handleMIDITrigger store m) := by
  refine ⟨?_, ?_, ?_, ?_, ?_, ?_⟩
  · intro store command isBroadcaster isMod
    cases h : getActionsByCommand store command <;>
      simp [handleCommandTrigger, h, Except.map]
  · intro a isBroadcaster isMod
    cases hp : a.permissions with
    | none => simp [checkUserPermissions, hp]
    | some p =>
      rcases p with ⟨v, mo, br⟩
      cases isBroadcaster <;> cases isMod <;> cases v <;> cases mo <;> cases br <;>
        simp [checkUserPermissions, hp]
  · intro store p rewardId anyReward
    cases anyReward
    · simpa [handleChannelPointTrigger, getActionsByChannelPoints] using
        filter_ids_setPermissions p (fun a => channelPointMatch a rewardId)
          (fun _ => rfl) store
    · simpa [handleChannelPointTrigger, getActionsByChannelPoints] using
        filter_ids_setPermissions p (fun a => channelPointMatch a "")
          (fun _ => rfl) store
  · intro store p
    simpa [handleCheerTrigger, getActionsByTrigger] using
      filter_ids_setPermissions p
        (fun a => a.triggers.any (fun t => t.type == "cheer")) (fun _ => rfl) store
  · intro store p
    simpa [handleSubscriberTrigger, getActionsByTrigger] using
      filter_ids_setPermissions p
        (fun a => a.triggers.any (fun t => t.type == "subscriber")) (fun _ => rfl) store
  · intro store p m
    simpa [handleMIDITrigger, getActionsByMIDITrigger] using
      filter_ids_setPermissions p (fun a => midiMatch m a) (fun _ => rfl) store

/-- A run of steps that all succeed produces their effects in declared
order and no error. -/
theorem runSteps_all_ok (env : ExecEnv) :
    ∀ (steps : List Step), (∀ s ∈ steps, (executeStep env s).2 = none) →
      runSteps env steps = ((steps.map (fun s => (executeStep env s).1)).flatten, none) := by
  intro steps h
  induction steps with
  | nil => rfl
  | cons s rest ih =>
    have hs := h s (List.mem_cons_self s rest)
    rcases hE : executeStep env s with ⟨eff, err⟩
    rw [hE] at hs
    simp only at hs
    subst hs
    have := ih (fun x hx => h x (List.mem_cons_of_mem s hx))
    simp [runSteps, hE, this]

/-- Claim C2: steps execute strictly in declared order, each completed
before the next starts; the first failing step ends the invocation — the
trace contains exactly the effects of the preceding steps and of the
failing step itself, nothing from any later step — the engine appends
the structured error log entry, the failure propagates to the caller,
and the effects already performed remain in the trace (no rollback). -/
theorem step_executor_aborts_on_first_failure :
    ∀ (env : ExecEnv) (name : String) (pre : List Step) (bad : Step)
      (post : List Step) (e : String),
      (∀ s ∈ pre, (executeStep env s).2 = none) →
      (executeStep env bad).2 = some e →
      executeActionSteps env name (pre ++ bad :: post) =
        ((pre.map (fun s => (executeStep env s).1)).flatten
           ++ (executeStep env bad).1
           ++ (if env.mainWindowPresent then
                 [Effect.log "error" ("Action \"" ++ name ++ "\" failed: " ++ e)]
               else []),
         some e) := by
  intro env name pre bad post e hpre hbad
  have hrun : runSteps env (pre ++ bad :: post) =
      ((pre.map (fun s => (executeStep env s).1)).flatten
         ++ (executeStep env bad).1, some e) := by
    induction pre with
    | nil =>
      rcases hE : executeStep env bad with ⟨eff, err⟩
      rw [hE] at hbad
      simp only at hbad
      subst hbad
      simp [runSteps, hE]
    | cons s rest ih =>
      have hs := hpre s (List.mem_cons_self s rest)
      rcases hE : executeStep env s with ⟨eff, err⟩
      rw [hE] at hs
      simp only at hs
      subst hs
      have := ih (fun x hx => hpre x (List.mem_cons_of_mem s hx))
      simp [runSteps, hE, this]
  simp [executeActionSteps, hrun]

/-- Witness for C2, the spec's scenario: with OBS disconnected, the steps
`[switch_scene("A"), send_message("hi")]` produce only the failure of the
scene switch and its error log; the message step is never invoked. -/
theorem step_executor_aborts_on_first_failure_witness :
    executeActionSteps { obsConnected := false } "Act"
        [{ type := "obs_scene", value := "A" },
         { type := "twitch_message", value := "hi" }]
      = ([Effect.log "error" "Action \"Act\" failed: OBS not connected"],
         some "OBS not connected") ∧
    Effect.twitchSend "hi" ∉ (executeActionSteps { obsConnected := false } "Act"
        [{ type := "obs_scene", value := "A" },
         { type := "twitch_message", value := "hi" }]).1 := by
  have h := step_executor_aborts_on_first_failure { obsConnected := false } "Act"
    [] { type := "obs_scene", value := "A" } [{ type := "twitch_message", value := "hi" }]
    "OBS not connected" (by simp) (by rfl)
  simp only [List.nil_append] at h
  constructor
  · simpa using h
  · rw [show (executeActionSteps { obsConnected := false } "Act"
        [{ type := "obs_scene", value := "A" },
         { type := "twitch_message", value := "hi" }]) =
        ([Effect.log "error" "Action \"Act\" failed: OBS not connected"],
         some "OBS not connected") from by simpa using h]
    simp

/-- Claim C3: each reconnection cycle schedules attempt `n` after
`min(1000 · 2^(n−1), 30000)` ms, so a fully failing cycle runs attempts
1..10 with delays 1000, 2000, 4000, 8000, 16000 and then 30000 ms five
times; after attempt 10 fails the supervisor emits the terminal
`reconnection_failed` notification with the attempt count and last
error, and an eleventh timer event produces nothing — attempt 11 never
occurs (exactly ten connect attempts appear in the trace). -/
theorem reconnection_backoff_sequence :
    (∀ s : OBSState, s.currentRetryCount < obsMaxRetries →
      (startReconnection s).2 =
        [.reconnecting (s.currentRetryCount + 1) obsMaxRetries
          (min (obsInitialRetryDelay * 2 ^ s.currentRetryCount) obsMaxRetryDelay)]) ∧
    (obsRun (obsConnectedState "cfg")
        (.closedEvt :: List.replicate 11 (.fire false "boom"))).2 =
      [.reconnecting 1 10 1000, .disconnectedEvt,
       .connectAttempt "cfg", .reconnecting 2 10 2000,
       .connectAttempt "cfg", .reconnecting 3 10 4000,
       .connectAttempt "cfg", .reconnecting 4 10 8000,
       .connectAttempt "cfg", .reconnecting 5 10 16000,
       .connectAttempt "cfg", .reconnecting 6 10 30000,
       .connectAttempt "cfg", .reconnecting 7 10 30000,
       .connectAttempt "cfg", .reconnecting 8 10 30000,
       .connectAttempt "cfg", .reconnecting 9 10 30000,
       .connectAttempt "cfg", .reconnecting 10 10 30000,
       .connectAttempt "cfg", .reconnectionFailed 10 "boom"] ∧
    ((obsRun (obsConnectedState "cfg")
        (.closedEvt :: List.replicate 11 (.fire false "boom"))).2.countP
      (fun o => match o with | .connectAttempt _ => true | _ => false)) = 10 := by
  refine ⟨?_, by decide, by decide⟩
  intro s h
  have hge : ¬ s.currentRetryCount ≥ obsMaxRetries := Nat.not_le.mpr h
  simp [startReconnection, hge]

/-- Witness for C3: entering reconnection from a freshly connected client
(zero retries so far) schedules attempt 1 after exactly 1000 ms. -/
theorem reconnection_backoff_sequence_witness :
    (startReconnection (obsConnectedState "x")).2 = [.reconnecting 1 10 1000] := by
  have h := reconnection_backoff_sequence.1 (obsConnectedState "x") (by decide)
  simpa using h

/-- No `connect` call of the supervised transport occurs in an output
trace. -/
def noConnectAttempts (out : List OBSOut) : Bool :=
  out.all (fun o => match o with | .connectAttempt _ => false | _ => true)

/-- One stimulus delivered to a client with no pending timer and no live
socket leaves it with no pending timer and no live socket, and attempts
no connect. -/
theorem obsStep_quiescent (s : OBSState) (stim : OBSStim)
    (h1 : s.reconnectTimeout = none) (h2 : s.socketLive = false) :
    (obsStep s stim).1.reconnectTimeout = none ∧
    (obsStep s stim).1.socketLive = false ∧
    noConnectAttempts (obsStep s stim).2 = true := by
  cases stim with
  | closedEvt => simp [obsStep, h1, h2, noConnectAttempts]
  | errorEvt => simp [obsStep, h1, h2, noConnectAttempts]
  | fire ok err => simp [obsStep, h1, h2, noConnectAttempts]
  | ipcDisc => simp [obsStep, ipcDisconnect, stopReconnection, h2, noConnectAttempts]
  | setAuto enabled =>
    cases enabled <;>
      simp [obsStep, setAutoReconnect, stopReconnection, h1, h2, noConnectAttempts]

/-- A client with no pending timer and no live socket never attempts a
connect across any stimulus sequence (there being no explicit connect
request among the stimuli). -/
theorem obsRun_quiescent :
    ∀ (stims : List OBSStim) (s : OBSState),
      s.reconnectTimeout = none → s.socketLive = false →
      noConnectAttempts (obsRun s stims).2 = true := by
  intro stims
  induction stims with
  | nil => intro s _ _; rfl
  | cons stim rest ih =>
    intro s h1 h2
    obtain ⟨k1, k2, k3⟩ := obsStep_quiescent s stim h1 h2
    rcases hE : obsStep s stim with ⟨s1, out1⟩
    rw [hE] at k1 k2 k3
    simp only [obsRun, hE]
    rcases hR : obsRun s1 rest with ⟨s2, out2⟩
    have := ih s1 k1 k2
    rw [hR] at this
    simp only [noConnectAttempts, List.all_append] at k3 this ⊢
    simp [k3, this]

/-- Claim C4: an explicit `disconnect()` issued while reconnecting (the
`obs:disconnect` handler: `stopReconnection()` then `disconnect()`, the
socket being already dead in that state) cancels the pending timer,
discards the retry state, forces the disconnected state, emits nothing,
and no connect attempt ever occurs afterwards under any sequence of
further stimuli short of a new explicit connect request. -/
theorem disconnect_while_reconnecting_cancels :
    ∀ s : OBSState, s.isReconnecting = true → s.socketLive = false →
      (ipcDisconnect s).1.reconnectTimeout = none ∧
      (ipcDisconnect s).1.isReconnecting = false ∧
      (ipcDisconnect s).1.currentRetryCount = 0 ∧
      (ipcDisconnect s).1.connected = false ∧
      (ipcDisconnect s).2 = [] ∧
      (∀ stims : List OBSStim,
        noConnectAttempts (obsRun (ipcDisconnect s).1 stims).2 = true) := by
  intro s _ h2
  have hd : ipcDisconnect s =
      ({ stopReconnection s with connected := false }, []) := by
    simp [ipcDisconnect, stopReconnection, h2]
  refine ⟨by simp [hd, stopReconnection], by simp [hd, stopReconnection],
          by simp [hd, stopReconnection], by simp [hd], by simp [hd], ?_⟩
  intro stims
  rw [hd]
  exact obsRun_quiescent stims _ (by simp [stopReconnection]) (by simp [stopReconnection, h2])

/-- Witness for C4: a client three failed attempts into a reconnection
cycle, timer pending, is fully reset by the IPC disconnect and stays
quiet over a sample stimulus sequence. -/
theorem disconnect_while_reconnecting_cancels_witness :
    (ipcDisconnect
      { connected := false, autoReconnect := true, currentRetryCount := 3,
        reconnectTimeout := some 8000, lastConnectionConfig := some "cfg",
        isReconnecting := true, socketLive := false }).1.reconnectTimeout = none ∧
    noConnectAttempts (obsRun (ipcDisconnect
      { connected := false, autoReconnect := true, currentRetryCount := 3,
        reconnectTimeout := some 8000, lastConnectionConfig := some "cfg",
        isReconnecting := true, socketLive := false }).1
      [.closedEvt, .errorEvt, .fire false "x", .setAuto true, .fire true "y"]).2
      = true := by
  have h := disconnect_while_reconnecting_cancels
    { connected := false, autoReconnect := true, currentRetryCount := 3,
      reconnectTimeout := some 8000, lastConnectionConfig := some "cfg",
      isReconnecting := true, socketLive := false } rfl rfl
  exact ⟨h.1, h.2.2.2.2.2 _⟩

/-- An action input that is well-formed in every respect except that all
three permission flags are false. -/
def allDenyInput : ActionInput :=
  { id := "", name := "No one",
    triggers := some [{ type := "command", config := { command := some "!x" } }],
    steps := some [],
    permissions := some { viewer := false, moderator := false, broadcaster := false } }

/-- Counterexample to claim C1: saving an Action whose permission flags
are all false is not rejected — `createAction` stores it verbatim (and
even `validateAction`, which the save path never invokes, reports it
valid). -/
theorem permissions_invariant_counterexample :
    (createAction "u1" allDenyInput []).2 =
      [{ id := "u1", name := "No one",
         triggers := [{ type := "command", config := { command := some "!x" } }],
         steps := [],
         permissions := some { viewer := false, moderator := false,
                               broadcaster := false } }] ∧
    validateAction allDenyInput = [] := by
  exact ⟨rfl, rfl⟩

/-- Claim C1 as amended: the save path performs no permissions
validation at all — `createAction` appends every input verbatim (its
`permissions` field unchanged, whatever it is), `updateAction` stores
the replacement record verbatim, `saveActions` persists the given list
verbatim, and `validateAction` (never called on the save path anyway) is
blind to the `permissions` field. -/
theorem save_path_never_validates_permissions :
    (∀ (freshId : String) (inp : ActionInput) (store : List Action),
      (createAction freshId inp store).2 =
        store ++ [(createAction freshId inp store).1] ∧
      (createAction freshId inp store).1.permissions = inp.permissions) ∧
    (∀ (actionId : String) (upd : Action) (store : List Action) (l : List Action),
      updateAction actionId upd store = .ok l → { upd with id := actionId } ∈ l) ∧
    (∀ l : List Action, saveActions l = l) ∧
    (∀ (inp : ActionInput) (p : Option Permissions),
      validateAction { inp with permissions := p } = validateAction inp) := by
  refine ⟨fun freshId inp store => ⟨rfl, rfl⟩, ?_, fun l => rfl, fun inp p => rfl⟩
  intro actionId upd store l h
  simp only [updateAction] at h
  cases hidx : store.findIdx? (fun a => a.id = actionId) with
  | none => rw [hidx] at h; exact absurd h (by simp)
  | some i =>
    rw [hidx] at h
    simp only [Except.ok.injEq] at h
    subst h
    have hi : i < store.length :=
      (List.findIdx?_eq_some_iff_findIdx_eq.mp hidx).1
    have hlen : i < (store.set i { upd with id := actionId }).length := by
      simpa using hi
    have hget : (store.set i { upd with id := actionId })[i] =
        { upd with id := actionId } := List.getElem_set_self hlen
    have hmem := List.getElem_mem hlen
    rw [hget] at hmem
    exact hmem

/-- Witness for the amended C1: updating an existing action with an
all-false permission set succeeds and the stored record keeps that
permission set. -/
theorem save_path_never_validates_permissions_witness :
    updateAction "u1"
      { id := "ignored", name := "No one",
        triggers := [{ type := "command", config := { command := some "!x" } }],
        steps := [],
        permissions := some { viewer := false, moderator := false,
                              broadcaster := false } }
      [{ id := "u1", name := "Old",
         triggers := [{ type := "command", config := { command := some "!x" } }],
         steps := [], permissions := none }]
      = .ok [{ id := "u1", name := "No one",
               triggers := [{ type := "command", config := { command := some "!x" } }],
               steps := [],
               permissions := some { viewer := false, moderator := false,
                                     broadcaster := false } }] ∧
    ({ id := "u1", name := "No one",
       triggers := [{ type := "command", config := { command := some "!x" } }],
       steps := [],
       permissions := some (Permissions.mk false false false) } : Action) ∈
      ([{ id := "u1", name := "No one",
          triggers := [{ type := "command", config := { command := some "!x" } }],
          steps := [],
          permissions := some (Permissions.mk false false false) }] : List Action) := by
  refine ⟨by rfl, ?_⟩
  have h := save_path_never_validates_permissions.2.1 "u1"
    { id := "ignored", name := "No one",
      triggers := [{ type := "command", config := { command := some "!x" } }],
      steps := [],
      permissions := some { viewer := false, moderator := false,
                            broadcaster := false } }
    [{ id := "u1", name := "Old",
       triggers := [{ type := "command", config := { command := some "!x" } }],
       steps := [], permissions := none }]
    [{ id := "u1", name := "No one",
       triggers := [{ type := "command", config := { command := some "!x" } }],
       steps := [],
       permissions := some { viewer := false, moderator := false,
                             broadcaster := false } }]
    (by rfl)
  exact h

/-- Claim C10: `createAction` with no caller-supplied triggers stores the
default `{type: 'command', config: {}}` trigger, whose config carries no
command string; any store containing an action whose first command
trigger lacks a command string makes `getActionsByCommand` throw a
`TypeError` (instead of skipping that action), and the error propagates
through `handleCommandTrigger`, so every subsequent command dispatch
throws. -/
theorem default_command_trigger_breaks_dispatch :
    (∀ (freshId : String) (inp : ActionInput) (store : List Action),
      inp.triggers = none →
      (createAction freshId inp store).1.triggers =
        [{ type := "command", config := {} }]) ∧
    (({ type := "command", config := {} } : Trigger).config.command = none) ∧
    (∀ (pre post : List Action) (a : Action) (t : Trigger) (c : String),
      a.triggers.find? (fun tr => tr.type == "command") = some t →
      t.config.command = none →
      ∃ e, getActionsByCommand (pre ++ a :: post) c = .error e) ∧
    (∀ (store : List Action) (c : String) (isBroadcaster isMod : Bool) (e : String),
      getActionsByCommand store c = .error e →
      handleCommandTrigger store c isBroadcaster isMod = .error e) := by
  refine ⟨?_, rfl, ?_, ?_⟩
  · intro freshId inp store h
    simp [createAction, h]
  · intro pre post a t c ht hcmd
    induction pre with
    | nil =>
      refine ⟨"TypeError: Cannot read properties of undefined (reading 'startsWith')", ?_⟩
      simp [getActionsByCommand, actionCommandMatch, ht, hcmd, Bind.bind, Except.bind]
    | cons p rest ih =>
      cases hm : actionCommandMatch p c with
      | error e0 =>
        exact ⟨e0, by simp [getActionsByCommand, hm, Bind.bind, Except.bind]⟩
      | ok b =>
        obtain ⟨e, he⟩ := ih
        exact ⟨e, by simp [getActionsByCommand, hm, he, Bind.bind, Except.bind]⟩
  · intro store c isBroadcaster isMod e h
    simp [handleCommandTrigger, h]

/-- Witness for C10: the store holding only the action `createAction`
builds by default (no triggers supplied) makes `getActionsByCommand`
throw on any lookup. -/
theorem default_command_trigger_breaks_dispatch_witness :
    ∃ e, getActionsByCommand
      [{ id := "u1", name := "X",
         triggers := [{ type := "command", config := {} }],
         steps := [], permissions := none }] "hi" = Except.error e := by
  exact default_command_trigger_breaks_dispatch.2.2.1 [] []
    { id := "u1", name := "X",
      triggers := [{ type := "command", config := {} }],
      steps := [], permissions := none }
    { type := "command", config := {} } "hi" rfl rfl

/-- Written after the spec's words for claim C9: "a non-negative integer
delay in milliseconds encoded as a string" — the whole value is a decimal
numeral, one or more digits and nothing else. -/
def specDelayNumeral (s : String) : Bool :=
  !s.data.isEmpty && s.data.all (fun c => '0' ≤ c ∧ c ≤ '9')

/-- Counterexample to claim C9 as stated: `"3.7"` does not parse as a
non-negative integer, yet the delay step does not fail — `parseInt` reads
the digit prefix and the step sleeps 3 ms and succeeds. -/
theorem delay_step_parse_counterexample :
    specDelayNumeral "3.7" = false ∧
    executeDelayStep "3.7" = ([Effect.sleep 3], none) := by
  exact ⟨by decide, by decide⟩

/-- A decimal digit is not `parseInt` whitespace. -/
theorem digit_not_jsSpace {c : Char} (h : '0' ≤ c ∧ c ≤ '9') :
    jsIsSpace c = false := by
  simp only [jsIsSpace, decide_eq_false_iff_not]
  rintro (rfl | rfl | rfl | rfl | rfl | rfl) <;> exact absurd h (by decide)

/-- On an all-digit list the decimal digit prefix is the whole list,
valued digit by digit. -/
theorem digitPrefix_of_digits :
    ∀ l : List Char, (∀ c ∈ l, '0' ≤ c ∧ c ≤ '9') →
      digitPrefix decDigitVal l = l.map (fun c => c.toNat - 48) := by
  intro l h
  induction l with
  | nil => rfl
  | cons c rest ih =>
    have hc := h c (List.mem_cons_self c rest)
    have : decDigitVal c = some (c.toNat - 48) := by
      simp [decDigitVal, hc]
    simp [digitPrefix, this, ih (fun x hx => h x (List.mem_cons_of_mem c hx))]

/-- `parseInt` of an all-digit string: no whitespace skipped, no sign, no
hex prefix, and the value is the decimal value of all the digits. -/
theorem jsParseInt_of_digits (v : String) (hne : v.data ≠ [])
    (hall : ∀ c ∈ v.data, '0' ≤ c ∧ c ≤ '9') :
    jsParseInt v =
      some ((radixVal 10 (v.data.map (fun c => c.toNat - 48)) : Nat) : Int) := by
  rcases hd : v.data with _ | ⟨c, t⟩
  · exact absurd hd hne
  rw [hd] at hall
  have hc : '0' ≤ c ∧ c ≤ '9' := hall c (List.mem_cons_self c t)
  have hallt : ∀ x ∈ t, '0' ≤ x ∧ x ≤ '9' := fun x hx =>
    hall x (List.mem_cons_of_mem c hx)
  have hdw : (c :: t).dropWhile jsIsSpace = c :: t := by
    rw [List.dropWhile_cons, digit_not_jsSpace hc]
    simp
  have hsign : splitSign (c :: t) = (1, c :: t) := by
    have h1 : c ≠ '-' := by rintro rfl; exact absurd hc (by decide)
    have h2 : c ≠ '+' := by rintro rfl; exact absurd hc (by decide)
    simp [splitSign, h1, h2]
  have hradix : splitRadix (c :: t) = (10, c :: t, decDigitVal) := by
    rcases ht : t with _ | ⟨c2, t2⟩
    · simp [splitRadix]
    · have hx : c2 ≠ 'x' := by
        rintro rfl
        exact absurd (hallt 'x' (ht ▸ List.mem_cons_self _ _)) (by decide)
      have hX : c2 ≠ 'X' := by
        rintro rfl
        exact absurd (hallt 'X' (ht ▸ List.mem_cons_self _ _)) (by decide)
      simp [splitRadix, hx, hX]
  have hdp : digitPrefix decDigitVal (c :: t) = (c :: t).map (fun x => x.toNat - 48) :=
    digitPrefix_of_digits (c :: t) hall
  simp only [jsParseInt, hd, hdw, hsign, hradix, hdp]
  simp

/-- Claim C9 as amended: the delay step throws exactly when JavaScript
`parseInt` of the value yields `NaN` or a negative number; when
`parseInt` yields a non-negative number the step performs only the
in-process sleep for that many milliseconds and succeeds (no external
collaborator is involved); in particular every genuine non-negative
decimal numeral still succeeds with its own value. -/
theorem delay_step_parseInt_semantics :
    ∀ v : String,
      ((executeDelayStep v).2 ≠ none ↔
        jsParseInt v = none ∨ ∃ d, jsParseInt v = some d ∧ d < 0) ∧
      (∀ d : Int, jsParseInt v = some d → 0 ≤ d →
        executeDelayStep v = ([Effect.sleep d], none)) ∧
      (specDelayNumeral v = true →
        ∃ d : Int, 0 ≤ d ∧ executeDelayStep v = ([Effect.sleep d], none)) := by
  intro v
  refine ⟨?_, ?_, ?_⟩
  · cases hp : jsParseInt v with
    | none => simp [executeDelayStep, hp]
    | some d =>
      by_cases hd : d < 0
      · simp [executeDelayStep, hp, hd]
      · simp [executeDelayStep, hp, hd]
  · intro d hp hd0
    simp [executeDelayStep, hp, not_lt.mpr hd0]
  · intro hnum
    simp only [specDelayNumeral, Bool.and_eq_true, Bool.not_eq_true',
      List.isEmpty_eq_false, List.all_eq_true, decide_eq_true_eq] at hnum
    obtain ⟨hne, hall⟩ := hnum
    have hp := jsParseInt_of_digits v hne hall
    refine ⟨((radixVal 10 (v.data.map (fun c => c.toNat - 48)) : Nat) : Int),
      Int.natCast_nonneg _, ?_⟩
    simp [executeDelayStep, hp, not_lt.mpr (Int.natCast_nonneg _)]

/-- Witness for the amended C9: the numeral `"250"` parses to 250 and the
step sleeps 250 ms and succeeds. -/
theorem delay_step_parseInt_semantics_witness :
    executeDelayStep "250" = ([Effect.sleep 250], none) := by
  exact (delay_step_parseInt_semantics "250").2.1 250 (by decide) (by decide)

end Debbot
